import Mathlib

/-!
Shallow embedding of the `siren` event-loop library (src/src/loop.cc and the
IOClock header in src/unnamed/part_002), together with proofs settling the
frozen claims about it.

Conventions of the embedding:
* C `long` / `ssize_t` values are modelled as `Int`; flag words as `Nat`
  bit masks.  C integer division on the non-negative operands that occur
  here coincides with Lean's `Int` division.
* The fiber scheduler, the kernel and the poller backend are the
  environment: each syscall outcome, each wait outcome (ready vs timed
  out) and each ready-condition word delivered by the poller dispatch is
  an explicit input, so the control flow of the wrapped functions becomes
  a pure function of those inputs.
* `errno` is modelled as part of each result (`Option Int`), not as a
  global.
-/

namespace Siren

/-! ### Constants (Linux x86-64 values) -/

def EINTR : Int := 4
def EBADF : Int := 9
def EAGAIN : Int := 11
def EFAULT : Int := 14
def EINVAL : Int := 22
def ENOSYS : Int := 38
def ENOTSOCK : Int := 88
def EINPROGRESS : Int := 115

def O_NONBLOCK : Nat := 2048

def POLLIN : Nat := 1
def POLLPRI : Nat := 2
def POLLOUT : Nat := 4
def POLLERR : Nat := 8
def POLLHUP : Nat := 16
def POLLNVAL : Nat := 32
def POLLRDHUP : Nat := 8192

/-- `IOCondition` bits (the enum's header is not part of the sources; only
distinctness of the bits matters to the claims). -/
def CondIn : Nat := 1
def CondOut : Nat := 2
def CondRdHup : Nat := 4
def CondPri : Nat := 8
def CondErr : Nat := 16
def CondHup : Nat := 32

/-! ### Per-fd options (struct FileOptions, loop.cc lines 34-40) -/

structure FileOptions where
  isSocket : Bool
  blocking : Bool
  readTimeout : Int
  writeTimeout : Int
deriving DecidableEq, Repr

/-- `Loop::getEffectiveReadTimeout` (loop.cc lines 771-776). -/
def getEffectiveReadTimeout (fo : FileOptions) : Int :=
  if fo.blocking then fo.readTimeout else 0

/-- `Loop::getEffectiveWriteTimeout` (loop.cc lines 779-784). -/
def getEffectiveWriteTimeout (fo : FileOptions) : Int :=
  if fo.blocking then fo.writeTimeout else 0

/-! ### `Loop::waitForFile` (loop.cc lines 787-865)

The function is modelled as the sequence of effects it performs on the
poller/clock/scheduler plus its boolean return value.  `isTimedOut` is the
environment's answer for the armed timer: `true` when the timer callback
fired (setting `context.isTimedOut`), `false` when the watcher callback
resumed the fiber first.  Scope guards run in reverse declaration order,
which puts the conditional `removeTimer` before `removeWatcher`. -/

inductive WFEvent where
  | addWatcher
  | addTimer
  | suspend
  | removeWatcher
  | removeTimer
deriving DecidableEq, Repr, BEq

def waitForFile (timeout : Int) (isTimedOut : Bool) : List WFEvent × Bool :=
  if timeout < 0 then
    ([.addWatcher, .suspend, .removeWatcher], true)
  else if timeout = 0 then
    ([], false)
  else
    ([.addWatcher, .addTimer, .suspend]
       ++ (if isTimedOut then [] else [.removeTimer]) ++ [.removeWatcher],
     !isTimedOut)

/-! ### `Loop::readFile` / `Loop::writeFile` (loop.cc lines 679-728)

Each loop iteration performs one syscall; the environment supplies, per
iteration, the syscall's outcome and (when a wait happens that round) the
wait's timed-out answer.  An empty environment means the model ran out of
fuel and yields `none`. -/

inductive SysRes where
  | ok (n : Nat)
  | err (e : Int)
deriving DecidableEq, Repr

structure IOResult where
  ret : Int
  errno : Option Int
  suspensions : Nat
deriving DecidableEq, Repr

def readFile (timeout : Int) : List (SysRes × Bool) → Option IOResult
  | [] => none
  | (r, tOut) :: rest =>
    match r with
    | .ok n => some ⟨(n : Int), none, 0⟩
    | .err e =>
      if e = EAGAIN then
        let w := waitForFile timeout tOut
        if w.2 then
          (readFile timeout rest).map
            fun res => ⟨res.ret, res.errno, res.suspensions + w.1.count .suspend⟩
        else some ⟨-1, some EAGAIN, w.1.count .suspend⟩
      else if e ≠ EINTR then some ⟨-1, some e, 0⟩
      else readFile timeout rest

def writeFile (timeout : Int) : List (SysRes × Bool) → Option IOResult
  | [] => none
  | (r, tOut) :: rest =>
    match r with
    | .ok n => some ⟨(n : Int), none, 0⟩
    | .err e =>
      if e = EAGAIN then
        let w := waitForFile timeout tOut
        if w.2 then
          (writeFile timeout rest).map
            fun res => ⟨res.ret, res.errno, res.suspensions + w.1.count .suspend⟩
        else some ⟨-1, some EAGAIN, w.1.count .suspend⟩
      else if e ≠ EINTR then some ⟨-1, some e, 0⟩
      else writeFile timeout rest

/-! ### MSG_WAITALL fill loop of `Loop::recv` / `Loop::recvfrom`
(loop.cc lines 500-524 and 558-582; the two loops are textually identical
except for the wrapped syscall)

Each environment entry is the result of one inner `readFile` call
(`-1` on error, `0` on orderly shutdown, `> 0` bytes read).  `chunksValid`
records the kernel guarantee that a read never returns more than the
remaining buffer space. -/

def recvWaitallLoop (bufferSize : Nat) : Nat → List Int → Option Int
  | _, [] => none
  | byteCount, r :: rest =>
    if r < 0 then
      some (if byteCount = 0 then -1 else (byteCount : Int))
    else if r = 0 then
      some (byteCount : Int)
    else
      if byteCount + r.toNat = bufferSize then some ((byteCount + r.toNat : Nat) : Int)
      else recvWaitallLoop bufferSize (byteCount + r.toNat) rest

def chunksValid (bufferSize : Nat) : Nat → List Int → Bool
  | _, [] => true
  | byteCount, r :: rest =>
    decide (r ≤ (bufferSize : Int) - (byteCount : Int))
      && (if 0 < r then chunksValid bufferSize (byteCount + r.toNat) rest else true)

/-! ### `Loop::open` (loop.cc lines 191-215)

The success path calls `::open(path, flags, mode | O_NONBLOCK)` and then
registers the fd with `createIOContext(fd, false, blocking)` where
`blocking = (mode & O_NONBLOCK) == 0`: both the forced non-blocking bit
and the virtual blocking flag are computed from `mode`, not `flags`. -/

structure OpenSyscallArgs where
  flags : Nat
  mode : Nat
deriving DecidableEq, Repr

def loopOpen_syscallArgs (flags mode : Nat) : OpenSyscallArgs :=
  ⟨flags, mode ||| O_NONBLOCK⟩

def loopOpen_isSocket : Bool := false

def loopOpen_blocking (flags mode : Nat) : Bool :=
  mode &&& O_NONBLOCK == 0

/-- The blocking bit as the spec's words state it (claim C4 and the
per-operation table): derived from the `flags` argument, for comparison
with `loopOpen_blocking`. -/
def specOpen_blocking (flags mode : Nat) : Bool :=
  flags &&& O_NONBLOCK == 0

/-! ### `Loop::connect` (loop.cc lines 451-484)

`firstErr` is the errno of the initial `::connect` (`none` on immediate
success); `soError` is the value `getsockopt(SO_ERROR)` reports after a
successful wait for writability.  The result pairs the return value with
the errno it sets, `none` when errno is untouched. -/

def connect (registered : Bool) (firstErr : Option Int) (timeout : Int)
    (tOut : Bool) (soError : Int) : Int × Option Int :=
  if !registered then (-1, some EBADF)
  else
    match firstErr with
    | none => (0, none)
    | some e =>
      if e = EINTR ∨ e = EINPROGRESS then
        if (waitForFile timeout tOut).2 then
          if soError = 0 then (0, none) else (-1, some soError)
        else (-1, some EINPROGRESS)
      else (-1, some e)

/-! ### `Loop::fcntl` F_GETFL / F_SETFL interception (loop.cc lines 219-245)

The kernel flag word of the fd is modelled verbatim (`::fcntl(F_GETFL)`
returns what the last `::fcntl(F_SETFL)` stored); `& ~O_NONBLOCK` on a C
int is `Nat.ldiff` on the flag word. -/

structure FcntlState where
  kernelFlags : Nat
  blocking : Bool
deriving DecidableEq, Repr

def fcntl_setfl (s : FcntlState) (flags : Nat) : FcntlState :=
  { kernelFlags := flags ||| O_NONBLOCK, blocking := flags &&& O_NONBLOCK == 0 }

def fcntl_getfl (s : FcntlState) : Nat :=
  Nat.ldiff s.kernelFlags O_NONBLOCK ||| (if s.blocking then 0 else O_NONBLOCK)

/-! ### `TimeToTimeout` / `TimeoutToTime` (loop.cc lines 935-964) and the
SO_RCVTIMEO / SO_SNDTIMEO interception of `Loop::setsockopt` /
`Loop::getsockopt` (loop.cc lines 374-409 and 337-371)

C `long` division by 1000 on the non-negative operands reachable through
the interface coincides with `Int` division.  `sizeOK` stands for the
caller's buffer being at least `sizeof(timeval)` (and non-null for
`getsockopt`). -/

structure Timeval where
  tv_sec : Int
  tv_usec : Int
deriving DecidableEq, Repr

def TimeToTimeout (time : Timeval) : Int :=
  if time.tv_sec = 0 ∧ time.tv_usec = 0 then -1
  else time.tv_sec * 1000 + time.tv_usec / 1000

def TimeoutToTime (timeout : Int) : Timeval :=
  if timeout < 0 then ⟨0, 0⟩
  else ⟨timeout / 1000, timeout % 1000 * 1000⟩

def setsockopt_timeo (fo : FileOptions) (isRcv : Bool) (sizeOK : Bool)
    (time : Timeval) : (Int × Option Int) × FileOptions :=
  if fo.isSocket then
    if !sizeOK then ((-1, some EINVAL), fo)
    else
      ((0, none),
       if isRcv then { fo with readTimeout := TimeToTimeout time }
       else { fo with writeTimeout := TimeToTimeout time })
  else ((-1, some ENOTSOCK), fo)

def getsockopt_timeo (fo : FileOptions) (isRcv : Bool) (sizeOK : Bool) :
    (Int × Option Int) × Option Timeval :=
  if fo.isSocket then
    if !sizeOK then ((-1, some EINVAL), none)
    else
      ((0, none),
       some (TimeoutToTime (if isRcv then fo.readTimeout else fo.writeTimeout)))
  else ((-1, some ENOTSOCK), none)

/-! ### `IOClock::removeExpiredTimers` (src/unnamed/part_002, the inline
section, lines 89-103)

The clock is `now_` (ms) plus the timer min-heap, modelled as the list of
expiry times read off in heap order (the top first).  The inline source
is a loop `while top.expiryTime_ <= now_ { callback(top); removeTop() }`;
it reads `now_` and never writes it — `now_` is maintained elsewhere
(`reset`/`start`/`stop`/`restart` live in a translation unit that is not
part of the sources). -/

structure ClockState where
  now : Int
  timerHeap : List Int
deriving DecidableEq, Repr

def removeExpiredLoop (now : Int) : List Int → List Int × List Int
  | [] => ([], [])
  | t :: rest =>
    if t ≤ now then
      let p := removeExpiredLoop now rest
      (p.1, t :: p.2)
    else (t :: rest, [])

/-- The pair is (heap afterwards, expired timers in emission order). -/
def removeExpiredTimers (c : ClockState) : ClockState × List Int :=
  let p := removeExpiredLoop c.now c.timerHeap
  ({ c with timerHeap := p.1 }, p.2)

/-- Modelled from the spec: `removeExpiredTimers(emit)` as §4.3 words it —
"updates `now` from a monotonic source (see §5), then pops timers whose
expiry ≤ now".  `monotonicNow` is the monotonic source's reading at the
call; used only to compare against the code's `removeExpiredTimers`. -/
def specRemoveExpiredTimers (monotonicNow : Int) (c : ClockState) :
    ClockState × List Int :=
  removeExpiredTimers { c with now := monotonicNow }

/-! ### `LOOP_CHECK_FD` (loop.cc lines 19-29) and simple wrappers

In release builds the macro is `if (!ioContextExists(fd)) { errno = EBADF;
return -1; }`, placed as the first statement of read, write, readv,
writev, recv, send, recvfrom, sendto, accept4, connect, close, fcntl,
getsockopt and setsockopt (loop.cc lines 284, 292, 300, 308, 490, 530,
548, 589, 415, 454, 606, 222, 340, 378). -/

def checkFD (registered : Bool) (body : Int × Option Int) : Int × Option Int :=
  if registered then body else (-1, some EBADF)

/-- `Loop::read` (loop.cc lines 281-286): LOOP_CHECK_FD, then the
readFile loop with the effective read timeout. -/
def loopRead (registered : Bool) (fo : FileOptions)
    (env : List (SysRes × Bool)) : Option IOResult :=
  if registered then readFile (getEffectiveReadTimeout fo) env
  else some ⟨-1, some EBADF, 0⟩

/-- `Loop::write` (loop.cc lines 289-294). -/
def loopWrite (registered : Bool) (fo : FileOptions)
    (env : List (SysRes × Bool)) : Option IOResult :=
  if registered then writeFile (getEffectiveWriteTimeout fo) env
  else some ⟨-1, some EBADF, 0⟩

/-! ### `Loop::poll` (loop.cc lines 612-675)

`registered` is `ioContextExists(pollFD->fd)`; `tOut` and `readyConds`
are the environment's wait outcome as for `waitForFile`.  The outcome
records the returned value, the errno it sets, the pollfd as left for the
caller, the condition mask a watcher would be armed with, and which
effects (watcher, timer, suspension, setDelay) happened. -/

structure PollFD where
  fd : Int
  events : Nat
  revents : Nat
deriving DecidableEq, Repr

def eventsToConditions (events : Nat) : Nat :=
  [(POLLIN, CondIn), (POLLOUT, CondOut), (POLLRDHUP, CondRdHup),
   (POLLPRI, CondPri)].foldl
    (fun acc x => if events &&& x.1 = x.1 then acc ||| x.2 else acc) 0

def conditionsToRevents (conds : Nat) : Nat :=
  [(CondIn, POLLIN), (CondOut, POLLOUT), (CondRdHup, POLLRDHUP),
   (CondPri, POLLPRI), (CondErr, POLLERR), (CondHup, POLLHUP)].foldl
    (fun acc x => if conds &&& x.1 = x.1 then acc ||| x.2 else acc) 0

structure PollOutcome where
  ret : Int
  errno : Option Int
  pfdOut : Option PollFD
  watchedConds : Option Nat
  armedWatcher : Bool
  armedTimer : Bool
  suspended : Bool
  delayed : Bool
deriving DecidableEq, Repr

def poll (pollFDs : Option PollFD) (numberOfPollFDs : Nat) (timeout : Int)
    (registered : Bool) (tOut : Bool) (readyConds : Nat) : PollOutcome :=
  if numberOfPollFDs = 0 then
    ⟨0, none, none, none, false, decide (0 ≤ timeout), true, true⟩
  else if numberOfPollFDs = 1 then
    match pollFDs with
    | none => ⟨-1, some EFAULT, none, none, false, false, false, false⟩
    | some pfd =>
      if registered then
        let conds := eventsToConditions pfd.events
        let w := waitForFile timeout tOut
        if w.2 then
          ⟨1, none, some { pfd with revents := conditionsToRevents readyConds },
           some conds, w.1.contains .addWatcher, w.1.contains .addTimer,
           w.1.contains .suspend, false⟩
        else
          ⟨0, none, some pfd, some conds, w.1.contains .addWatcher,
           w.1.contains .addTimer, w.1.contains .suspend, false⟩
      else
        ⟨1, none, some { pfd with revents := POLLNVAL }, none, false, false,
         false, false⟩
  else ⟨-1, some ENOSYS, none, none, false, false, false, false⟩

end Siren

namespace Siren

/-- C1: `Loop::waitForFile` follows the three-branch state machine on the
timeout value: `timeout < 0` arms only a watcher, suspends, and returns
`true`; `timeout == 0` returns `false` at once, arming nothing and not
suspending; `timeout > 0` arms watcher and timer, suspends, and returns
`!isTimedOut`; on every exit path an armed watcher is removed (last, by
its scope guard), and an armed timer is removed exactly when it has not
fired. -/
theorem waitForFile_state_machine (timeout : Int) (isTimedOut : Bool) :
    ((waitForFile timeout isTimedOut).2
        = (if timeout < 0 then true else if timeout = 0 then false else !isTimedOut))
    ∧ (WFEvent.addWatcher ∈ (waitForFile timeout isTimedOut).1 ↔ timeout ≠ 0)
    ∧ (WFEvent.addTimer ∈ (waitForFile timeout isTimedOut).1 ↔ 0 < timeout)
    ∧ (WFEvent.suspend ∈ (waitForFile timeout isTimedOut).1 ↔ timeout ≠ 0)
    ∧ (WFEvent.removeWatcher ∈ (waitForFile timeout isTimedOut).1
        ↔ WFEvent.addWatcher ∈ (waitForFile timeout isTimedOut).1)
    ∧ (WFEvent.removeTimer ∈ (waitForFile timeout isTimedOut).1
        ↔ 0 < timeout ∧ isTimedOut = false)
    ∧ ((waitForFile timeout isTimedOut).1.getLast? = some WFEvent.removeWatcher
        ↔ timeout ≠ 0) := by
  rcases lt_trichotomy timeout 0 with h | h | h
  · simp [waitForFile, h, h.ne, not_lt.mpr h.le]
  · simp [waitForFile, h]
  · cases isTimedOut <;>
      simp [waitForFile, h, h.ne.symm, not_lt.mpr h.le, List.getLast?]

/-- C2: the effective read (write) timeout of an fd equals the stored
`readTimeout` (`writeTimeout`) exactly when the virtual blocking flag is
set, and equals 0 otherwise; and a read or write whose first syscall hits
EAGAIN while the effective timeout is 0 returns -1 with errno EAGAIN,
without suspending the fiber. -/
theorem effectiveTimeout_rule (fo : FileOptions) (tOut : Bool)
    (rest : List (SysRes × Bool)) (hr : getEffectiveReadTimeout fo = 0)
    (hw : getEffectiveWriteTimeout fo = 0) :
    getEffectiveReadTimeout fo = (if fo.blocking then fo.readTimeout else 0)
    ∧ getEffectiveWriteTimeout fo = (if fo.blocking then fo.writeTimeout else 0)
    ∧ readFile (getEffectiveReadTimeout fo) ((SysRes.err EAGAIN, tOut) :: rest)
        = some ⟨-1, some EAGAIN, 0⟩
    ∧ writeFile (getEffectiveWriteTimeout fo) ((SysRes.err EAGAIN, tOut) :: rest)
        = some ⟨-1, some EAGAIN, 0⟩ := by
  refine ⟨rfl, rfl, ?_, ?_⟩ <;>
    simp [hr, hw, readFile, writeFile, waitForFile, EAGAIN]

/-- Witness for C2 at a concrete non-blocking fd record. -/
theorem effectiveTimeout_rule_witness :
    readFile (getEffectiveReadTimeout ⟨true, false, 5000, 7000⟩)
        [(SysRes.err EAGAIN, false)] = some ⟨-1, some EAGAIN, 0⟩ :=
  (effectiveTimeout_rule ⟨true, false, 5000, 7000⟩ false [] (by decide)
    (by decide)).2.2.1

/-- Helper for C3: invariant of the MSG_WAITALL fill loop, generalized
over the bytes already accumulated. -/
theorem recvWaitallLoop_bounds (n : Nat) :
    ∀ (env : List Int) (b : Nat) (r : Int), b ≤ n →
      chunksValid n b env = true → recvWaitallLoop n b env = some r →
      ((b : Int) ≤ r ∨ (b = 0 ∧ r = -1)) ∧ r ≤ n ∧
        (r = -1 → b = 0 ∧ ∃ e rest, env = e :: rest ∧ e < 0) := by
  intro env
  induction env with
  | nil => intro b r _ _ h; simp [recvWaitallLoop] at h
  | cons e rest ih =>
    intro b r hb hv h
    simp only [chunksValid, Bool.and_eq_true, decide_eq_true_eq] at hv
    obtain ⟨hle, hv⟩ := hv
    by_cases he : e < 0
    · simp only [recvWaitallLoop, if_pos he] at h
      by_cases hb0 : b = 0
      · subst hb0
        simp only [if_pos rfl, Option.some_inj] at h
        subst h
        exact ⟨Or.inr ⟨rfl, rfl⟩, by omega, fun _ => ⟨rfl, e, rest, rfl, he⟩⟩
      · simp only [if_neg hb0, Option.some_inj] at h
        subst h
        refine ⟨Or.inl le_rfl, by exact_mod_cast hb, fun hcontra => ?_⟩
        omega
    · by_cases he0 : e = 0
      · subst he0
        simp [recvWaitallLoop, he] at h
        refine ⟨Or.inl ?_, ?_, fun hcontra => by omega⟩ <;> omega
      · have hpos : 0 < e := by omega
        rw [if_pos hpos] at hv
        have hbc : b + e.toNat ≤ n := by omega
        simp only [recvWaitallLoop, if_neg he, if_neg he0] at h
        by_cases hfull : b + e.toNat = n
        · simp only [if_pos hfull, Option.some_inj] at h
          subst h
          refine ⟨Or.inl ?_, by omega, fun hcontra => by omega⟩
          omega
        · simp only [if_neg hfull] at h
          obtain ⟨h1, h2, h3⟩ := ih (b + e.toNat) r hbc hv h
          refine ⟨Or.inl ?_, h2, fun hr => ?_⟩
          · rcases h1 with h1 | ⟨h1, _⟩
            · omega
            · omega
          · obtain ⟨hb0, _⟩ := h3 hr
            omega

/-- Helper for C3: complete characterization of the fill loop's result.
The consumed environment is a prefix `p` of strictly positive reads; the
loop then either filled the buffer exactly (returning `n`), hit a
zero-byte read (returning the bytes accumulated), or hit an error
(returning the accumulated bytes, or -1 when there are none). -/
theorem recvWaitallLoop_cases (n : Nat) :
    ∀ (env : List Int) (b : Nat) (r : Int),
      chunksValid n b env = true →
      recvWaitallLoop n b env = some r →
      ∃ p rest, env = p ++ rest ∧ (∀ x ∈ p, 0 < x) ∧
        ((b + (p.map Int.toNat).sum = n ∧ r = (n : Int))
         ∨ (∃ rest2, rest = (0 : Int) :: rest2
             ∧ r = ((b + (p.map Int.toNat).sum : Nat) : Int))
         ∨ (∃ e rest2, rest = e :: rest2 ∧ e < 0
             ∧ r = (if b + (p.map Int.toNat).sum = 0 then (-1 : Int)
                    else ((b + (p.map Int.toNat).sum : Nat) : Int)))) := by
  intro env
  induction env with
  | nil => intro b r _ h; simp [recvWaitallLoop] at h
  | cons e rest ih =>
    intro b r hv h
    simp only [chunksValid, Bool.and_eq_true, decide_eq_true_eq] at hv
    obtain ⟨hle, hv⟩ := hv
    by_cases he : e < 0
    · refine ⟨[], e :: rest, by simp, by simp,
        Or.inr (Or.inr ⟨e, rest, rfl, he, ?_⟩)⟩
      simp only [recvWaitallLoop, if_pos he] at h
      simp only [List.map_nil, List.sum_nil, Nat.add_zero]
      by_cases hb : b = 0 <;> simp [hb] at h ⊢ <;> omega
    · by_cases he0 : e = 0
      · subst he0
        simp [recvWaitallLoop] at h
        refine ⟨[], 0 :: rest, by simp, by simp,
          Or.inr (Or.inl ⟨rest, rfl, ?_⟩)⟩
        simp only [List.map_nil, List.sum_nil, Nat.add_zero]
        omega
      · have hpos : 0 < e := by omega
        rw [if_pos hpos] at hv
        simp only [recvWaitallLoop, if_neg he, if_neg he0] at h
        by_cases hfull : b + e.toNat = n
        · simp only [if_pos hfull, Option.some_inj] at h
          refine ⟨[e], rest, by simp, by simp [hpos], Or.inl ⟨?_, ?_⟩⟩
          · simp only [List.map_cons, List.map_nil, List.sum_cons,
              List.sum_nil, Nat.add_zero]
            omega
          · omega
        · simp only [if_neg hfull] at h
          obtain ⟨p, rest2, heq, hposall, hcase⟩ := ih (b + e.toNat) r hv h
          have hsum : b + ((e :: p).map Int.toNat).sum
              = b + e.toNat + (p.map Int.toNat).sum := by
            simp only [List.map_cons, List.sum_cons]
            omega
          refine ⟨e :: p, rest2, by simp [heq], ?_, ?_⟩
          · intro x hx
            rcases List.mem_cons.mp hx with rfl | hx
            · exact hpos
            · exact hposall x hx
          · rcases hcase with ⟨h1, h2⟩ | ⟨rest3, h1, h2⟩ | ⟨e2, rest3, h1, h2, h3⟩
            · exact Or.inl ⟨by rw [hsum]; exact h1, h2⟩
            · exact Or.inr (Or.inl ⟨rest3, h1, by rw [hsum]; exact h2⟩)
            · exact Or.inr (Or.inr ⟨e2, rest3, h1, h2, by rw [hsum]; exact h3⟩)

/-- C3: a MSG_WAITALL fill loop over buffer size `n` that terminates with
result `r` satisfies `r = -1` or `0 ≤ r ≤ n`, with `r = -1` exactly when
the very first inner read fails (the error occurs before any byte was
collected); moreover the loop consumes a prefix of strictly positive
reads and terminates on exactly one of the claim's three events, each
with the claimed value: (a) the accumulated reads fill the buffer and `r
= n`, (b) a zero-byte read (orderly shutdown) and `r` is the byte count
accumulated so far, or (c) an error, returning the accumulated byte
count when it is positive instead of -1. -/
theorem recvWaitall_spec (n : Nat) (env : List Int) (r : Int)
    (hv : chunksValid n 0 env = true)
    (h : recvWaitallLoop n 0 env = some r) :
    (r = -1 ∨ (0 ≤ r ∧ r ≤ n))
    ∧ (r = -1 ↔ ∃ e rest, env = e :: rest ∧ e < 0)
    ∧ ∃ p rest, env = p ++ rest ∧ (∀ x ∈ p, 0 < x) ∧
        (((p.map Int.toNat).sum = n ∧ r = (n : Int))
         ∨ (∃ rest2, rest = (0 : Int) :: rest2
             ∧ r = (((p.map Int.toNat).sum : Nat) : Int))
         ∨ (∃ e rest2, rest = e :: rest2 ∧ e < 0
             ∧ r = (if (p.map Int.toNat).sum = 0 then (-1 : Int)
                    else (((p.map Int.toNat).sum : Nat) : Int)))) := by
  obtain ⟨h1, h2, h3⟩ := recvWaitallLoop_bounds n env 0 r (Nat.zero_le n) hv h
  refine ⟨?_, ⟨fun hr => (h3 hr).2, ?_⟩, ?_⟩
  · rcases h1 with h1 | ⟨_, h1⟩
    · exact Or.inr ⟨h1, h2⟩
    · exact Or.inl h1
  · rintro ⟨e, rest, rfl, he⟩
    simp [recvWaitallLoop, he] at h
    omega
  · have hc := recvWaitallLoop_cases n env 0 r hv h
    simpa only [Nat.zero_add] using hc

/-- Witness for C3: a 2-byte read followed by a mid-stream error on a
4-byte buffer returns 2, not -1. -/
theorem recvWaitall_spec_witness :
    (2 : Int) = -1 ∨ (0 ≤ (2 : Int) ∧ (2 : Int) ≤ (4 : Nat)) :=
  (recvWaitall_spec 4 [2, -1] 2 (by decide) (by decide)).1

/-- C4 (code evaluated at the failing input): for `flags = O_NONBLOCK`,
`mode = 0`, `Loop::open` registers the fd with `blocking = true` because
it tests `mode & O_NONBLOCK`, while the blocking bit stated by the spec,
`!(flags & O_NONBLOCK)`, is `false`; moreover the kernel `::open` is
invoked with a flags word that lacks `O_NONBLOCK` (the bit was merged
into `mode` instead), so for `flags = 0` the kernel fd would stay
blocking. -/
theorem open_blocking_bug :
    loopOpen_blocking O_NONBLOCK 0 = true
    ∧ specOpen_blocking O_NONBLOCK 0 = false
    ∧ loopOpen_isSocket = false
    ∧ (loopOpen_syscallArgs 0 420).flags &&& O_NONBLOCK = 0
    ∧ (loopOpen_syscallArgs 0 420).mode = 420 ||| O_NONBLOCK := by
  decide

/-- Counterexample for C5: a connect whose wait for writability times out
returns -1 with errno = EINPROGRESS, not EAGAIN. -/
theorem connect_timeout_counterexample :
    connect true (some EINPROGRESS) 20 true 0 = (-1, some EINPROGRESS)
    ∧ EINPROGRESS ≠ EAGAIN := by
  decide

/-- C5 as amended: for every registered fd whose initial `::connect`
fails with EINTR or EINPROGRESS and whose wait for writability fails
(`waitForFile` returns false, i.e. a zero timeout or a fired timer),
`Loop::connect` returns -1 with errno set to EINPROGRESS. -/
theorem connect_timeout_einprogress (e timeout : Int) (tOut : Bool)
    (soError : Int) (he : e = EINTR ∨ e = EINPROGRESS)
    (hw : (waitForFile timeout tOut).2 = false) :
    connect true (some e) timeout tOut soError = (-1, some EINPROGRESS) := by
  simp [connect, if_pos he, hw]

/-- Witness for C5 at a concrete timed-out connect. -/
theorem connect_timeout_einprogress_witness :
    connect true (some EINPROGRESS) 20 true 7 = (-1, some EINPROGRESS) :=
  connect_timeout_einprogress EINPROGRESS 20 true 7 (Or.inr rfl) (by decide)

/-- Helper for C6: the O_NONBLOCK word has exactly bit 11 set. -/
theorem testBit_nonblock (i : Nat) : Nat.testBit 2048 i = decide (11 = i) := by
  have h : (2048 : Nat) = 2 ^ 11 := by norm_num
  rw [h, Nat.testBit_two_pow]

/-- Helper for C6: testing the O_NONBLOCK bit of a flag word is testing
bit 11. -/
theorem land_nonblock_eq_zero_iff (g : Nat) :
    g &&& O_NONBLOCK = 0 ↔ g.testBit 11 = false := by
  have hO : O_NONBLOCK = 2 ^ 11 := by norm_num [O_NONBLOCK]
  rw [hO, Nat.and_two_pow]
  cases h : g.testBit 11 <;> simp [h]

/-- C6: fcntl round-trip. After `F_SETFL` with flag word `f`, `F_GETFL`
returns exactly `f` (the model keeps every kernel bit, so nothing is
dropped "modulo bits the kernel ignores"); the kernel-level flag word
always carries O_NONBLOCK; and the O_NONBLOCK bit of any `F_GETFL` result
reflects the virtual blocking flag. -/
theorem fcntl_roundtrip (s : FcntlState) (f : Nat) :
    fcntl_getfl (fcntl_setfl s f) = f
    ∧ (fcntl_setfl s f).kernelFlags &&& O_NONBLOCK = O_NONBLOCK
    ∧ fcntl_getfl s &&& O_NONBLOCK = (if s.blocking then 0 else O_NONBLOCK) := by
  refine ⟨?_, ?_, ?_⟩
  · apply Nat.eq_of_testBit_eq
    intro i
    by_cases hf : f &&& O_NONBLOCK = 0
    · have hf11 : f.testBit 11 = false := (land_nonblock_eq_zero_iff f).mp hf
      simp only [fcntl_getfl, fcntl_setfl, O_NONBLOCK] at hf ⊢
      simp only [hf, beq_self_eq_true, if_true, Nat.or_zero,
        Nat.testBit_ldiff, Nat.testBit_lor, testBit_nonblock]
      by_cases hi : 11 = i
      · subst hi; simp [hf11]
      · simp [hi]
    · have hf11 : f.testBit 11 = true := by
        rcases h : f.testBit 11 with _ | _
        · exact absurd ((land_nonblock_eq_zero_iff f).mpr h) hf
        · rfl
      simp only [fcntl_getfl, fcntl_setfl, O_NONBLOCK] at hf ⊢
      rw [if_neg (by simpa using hf)]
      simp only [Nat.testBit_lor, Nat.testBit_ldiff, testBit_nonblock]
      by_cases hi : 11 = i
      · subst hi; simp [hf11]
      · simp [hi]
  · apply Nat.eq_of_testBit_eq
    intro i
    simp only [fcntl_setfl, O_NONBLOCK, Nat.testBit_land, Nat.testBit_lor,
      testBit_nonblock]
    by_cases hi : 11 = i <;> simp [hi]
  · rcases hb : s.blocking with _ | _ <;>
      · apply Nat.eq_of_testBit_eq
        intro i
        simp only [fcntl_getfl, O_NONBLOCK, hb, if_true, if_false,
          Nat.or_zero, Nat.testBit_land, Nat.testBit_lor, Nat.testBit_ldiff,
          testBit_nonblock, Nat.zero_testBit]
        by_cases hi : 11 = i <;> simp [hi, testBit_nonblock]

/-- Counterexample for C7: the timeval {0s, 1500us} does not survive the
store/read round-trip — the conversion to whole milliseconds truncates it
to {0s, 1000us}, so `TimeoutToTime (TimeToTimeout T) = T` fails for this
interface-accepted `T`, both for the raw conversions and through
setsockopt/getsockopt on a socket fd. -/
theorem sockopt_roundtrip_counterexample :
    TimeoutToTime (TimeToTimeout ⟨0, 1500⟩) = ⟨0, 1000⟩
    ∧ (⟨0, 1000⟩ : Timeval) ≠ ⟨0, 1500⟩
    ∧ (getsockopt_timeo
        (setsockopt_timeo ⟨true, true, -1, -1⟩ true true ⟨0, 1500⟩).2
        true true).2 = some ⟨0, 1000⟩ := by
  decide

/-- C7 as amended: the SO_RCVTIMEO/SO_SNDTIMEO round-trip restores the
stored timeval exactly for every timeval whose microsecond field is a
whole number of milliseconds in canonical range (0 ≤ tv_usec < 1000000,
tv_usec ≡ 0 mod 1000, tv_sec ≥ 0) — in particular the zero timeval maps
to the internal infinite timeout -1 and back; sub-millisecond precision
is truncated. -/
theorem sockopt_roundtrip (t : Timeval) (hs : 0 ≤ t.tv_sec)
    (hu0 : 0 ≤ t.tv_usec) (hu1 : t.tv_usec < 1000000)
    (hm : t.tv_usec % 1000 = 0) :
    TimeoutToTime (TimeToTimeout t) = t
    ∧ TimeToTimeout ⟨0, 0⟩ = -1
    ∧ TimeoutToTime (-1) = ⟨0, 0⟩
    ∧ ∀ (fo : FileOptions) (isRcv : Bool), fo.isSocket = true →
        (getsockopt_timeo ((setsockopt_timeo fo isRcv true t).2) isRcv
          true).2 = some t := by
  obtain ⟨s, u⟩ := t
  simp only [Timeval.mk.injEq] at *
  have hround : TimeoutToTime (TimeToTimeout ⟨s, u⟩) = ⟨s, u⟩ := by
    by_cases h0 : s = 0 ∧ u = 0
    · simp [TimeToTimeout, TimeoutToTime, h0]
    · have hpos : ¬(s * 1000 + u / 1000 < 0) := by omega
      simp only [TimeToTimeout, if_neg h0, TimeoutToTime, if_neg hpos,
        Timeval.mk.injEq]
      omega
  refine ⟨hround, by decide, by decide, ?_⟩
  intro fo isRcv hsock
  rcases isRcv with _ | _ <;>
    simp [setsockopt_timeo, getsockopt_timeo, hsock, hround]

/-- Witness for C7 at the timeval {1s, 2000us}. -/
theorem sockopt_roundtrip_witness :
    (getsockopt_timeo
      ((setsockopt_timeo ⟨true, true, -1, -1⟩ true true ⟨1, 2000⟩).2)
      true true).2 = some ⟨1, 2000⟩ :=
  (sockopt_roundtrip ⟨1, 2000⟩ (by decide) (by decide) (by decide)
    (by decide)).2.2.2 ⟨true, true, -1, -1⟩ true rfl

/-- Counterexample for C8: with the clock at now = 0 holding one timer of
expiry 5 while the monotonic source reads 10, the code's
`removeExpiredTimers` pops nothing and leaves `now` untouched, whereas
the claimed behavior (update `now` from the monotonic source, then pop
expired timers) would set now = 10 and emit the timer. -/
theorem removeExpiredTimers_counterexample :
    removeExpiredTimers ⟨0, [5]⟩ = (⟨0, [5]⟩, [])
    ∧ specRemoveExpiredTimers 10 ⟨0, [5]⟩ = (⟨10, []⟩, [5]) := by
  decide

/-- Helper for C8: the pop loop is takeWhile/dropWhile on the heap order. -/
theorem removeExpiredLoop_eq (now : Int) (l : List Int) :
    removeExpiredLoop now l
      = (l.dropWhile (fun t => decide (t ≤ now)),
         l.takeWhile (fun t => decide (t ≤ now))) := by
  induction l with
  | nil => rfl
  | cons t rest ih =>
    by_cases h : t ≤ now <;>
      simp [removeExpiredLoop, List.dropWhile, List.takeWhile, h, ih]

/-- C8 as amended: `removeExpiredTimers` does not itself read a monotonic
source — `now` is updated elsewhere and the call leaves it unchanged; it
repeatedly pops the heap top while its expiry is ≤ the stored `now`,
emitting each popped timer exactly once in pop order, and stops at the
first timer whose expiry exceeds `now`, leaving it and all later timers
on the heap. -/
theorem removeExpiredTimers_spec (c : ClockState) :
    removeExpiredTimers c
      = ({ c with
            timerHeap := c.timerHeap.dropWhile (fun t => decide (t ≤ c.now)) },
         c.timerHeap.takeWhile (fun t => decide (t ≤ c.now)))
    ∧ (removeExpiredTimers c).1.now = c.now
    ∧ (∀ t ∈ (removeExpiredTimers c).2, t ≤ c.now)
    ∧ (∀ t ∈ (removeExpiredTimers c).1.timerHeap.head?.toList, c.now < t) := by
  refine ⟨?_, ?_, ?_, ?_⟩
  · simp [removeExpiredTimers, removeExpiredLoop_eq]
  · simp [removeExpiredTimers, removeExpiredLoop_eq]
  · intro t ht
    simp only [removeExpiredTimers, removeExpiredLoop_eq] at ht
    have := List.mem_takeWhile_imp ht
    simpa using this
  · intro t ht
    simp only [removeExpiredTimers, removeExpiredLoop_eq] at ht
    rcases hh : (c.timerHeap.dropWhile (fun t => decide (t ≤ c.now))).head?
      with _ | u
    · simp [hh] at ht
    · have := List.head?_dropWhile_not (p := fun t => decide (t ≤ c.now))
        (l := c.timerHeap)
      rw [hh] at this ht
      simp at this ht
      omega

/-- Witness for C8 on a clock at now = 10 holding timers 3, 5, 20: timer 3
is emitted and is indeed expired. -/
theorem removeExpiredTimers_spec_witness : (3 : Int) ≤ (10 : Int) :=
  (removeExpiredTimers_spec ⟨10, [3, 5, 20]⟩).2.2.1 3 (by decide)

/-- Counterexample for C9: `Loop::poll` with nfds = 1 on an unregistered
fd does not fail with EBADF — in release builds it marks the entry
POLLNVAL in revents and returns 1 with errno untouched. -/
theorem unregistered_poll_counterexample :
    (poll (some ⟨7, POLLIN, 0⟩) 1 100 false false 0).ret = 1
    ∧ (poll (some ⟨7, POLLIN, 0⟩) 1 100 false false 0).errno = none
    ∧ (poll (some ⟨7, POLLIN, 0⟩) 1 100 false false 0).pfdOut
        = some ⟨7, POLLIN, POLLNVAL⟩
    ∧ ((1 : Int), (none : Option Int)) ≠ (-1, some EBADF) := by
  decide

/-- C9 as amended: every public syscall-wrapping operation that begins
with `LOOP_CHECK_FD` (read, write, readv, writev, recv, send, recvfrom,
sendto, accept4, connect, close, fcntl, getsockopt, setsockopt) fails
with -1/EBADF on an unregistered fd in release builds, before any I/O or
suspension — but `poll` with nfds = 1 is the exception: it sets the
entry's revents to POLLNVAL and returns 1 without touching errno. -/
theorem unregisteredFd_ebadf (body : Int × Option Int)
    (fo : FileOptions) (env : List (SysRes × Bool)) (firstErr : Option Int)
    (timeout : Int) (tOut : Bool) (soError : Int) (pfd : PollFD)
    (readyConds : Nat) :
    checkFD false body = (-1, some EBADF)
    ∧ loopRead false fo env = some ⟨-1, some EBADF, 0⟩
    ∧ loopWrite false fo env = some ⟨-1, some EBADF, 0⟩
    ∧ connect false firstErr timeout tOut soError = (-1, some EBADF)
    ∧ poll (some pfd) 1 timeout false tOut readyConds
        = ⟨1, none, some { pfd with revents := POLLNVAL }, none, false,
           false, false, false⟩ := by
  refine ⟨rfl, rfl, rfl, rfl, rfl⟩

/-- C10: `Loop::poll` with nfds = 1 and a null pollfd array returns -1
with errno EFAULT immediately: no watcher or timer is armed, the fiber is
not suspended, no delay is set, and no pollfd or per-fd state is
touched. -/
theorem poll_null_efault (timeout : Int) (registered : Bool) (tOut : Bool)
    (readyConds : Nat) :
    poll none 1 timeout registered tOut readyConds
      = ⟨-1, some EFAULT, none, none, false, false, false, false⟩ := by
  rfl

end Siren
